import Mathlib

/-!
Verification of the INI-style configuration parser and key-value store of
the `utility_belt` repository (files `src/config.rs` and `src/iter/uniq.rs`).

Strings are modelled as Lean strings, with the Rust string operations
(`trim`, `trim_start`, `trim_end`, `split_once`, `starts_with`, `ends_with`)
embedded as character-list functions.  The backing `HashMap<Key, String>`
is modelled as an association list whose `insert` overwrites the value of
an existing key; key lookup and key uniqueness are the only HashMap
behaviours the claims depend on (iteration order is unspecified in the
source and no claim relies on it).
-/

set_option autoImplicit false

namespace UtilityBelt

/-! ### Character-level embeddings of the Rust string operations -/

/-- Rust `str::trim_start` on a character list: drop leading whitespace. -/
def trimLeftChars (l : List Char) : List Char :=
  l.dropWhile Char.isWhitespace

/-- Rust `str::trim_end` on a character list: drop trailing whitespace. -/
def trimRightChars (l : List Char) : List Char :=
  (l.reverse.dropWhile Char.isWhitespace).reverse

/-- Rust `str::trim` on a character list. -/
def trimChars (l : List Char) : List Char :=
  trimRightChars (trimLeftChars l)

/-- Rust `str::trim` on strings. -/
def strTrim (s : String) : String :=
  String.mk (trimChars s.toList)

/-- Rust `str::trim_start` on strings. -/
def strTrimLeft (s : String) : String :=
  String.mk (trimLeftChars s.toList)

/-- Rust `str::trim_end` on strings. -/
def strTrimRight (s : String) : String :=
  String.mk (trimRightChars s.toList)

/-- Rust `str::starts_with(c)` for a single character. -/
def startsWithChar (c : Char) (s : String) : Bool :=
  match s.toList with
  | [] => false
  | x :: _ => x == c

/-- Rust `str::ends_with(c)` for a single character. -/
def endsWithChar (c : Char) (s : String) : Bool :=
  match s.toList.reverse with
  | [] => false
  | x :: _ => x == c

/-- Rust `str::is_empty`. -/
def strIsEmpty (s : String) : Bool :=
  match s.toList with
  | [] => true
  | _ :: _ => false

/-- Rust `str::split_once(c)`: split at the first occurrence of `c`,
returning the text before and after it, or `none` when `c` does not occur. -/
def splitOnceChar (c : Char) (s : String) : Option (String × String) :=
  if c ∈ s.toList then
    some (String.mk (s.toList.takeWhile (fun x => x != c)),
          String.mk ((s.toList.dropWhile (fun x => x != c)).tail))
  else
    none

/-- The text strictly between the first and last character of a line;
embeds the slice `line[1..line.len()-1]` (used when the first character is
known to be a single-byte character and the last a single-byte character). -/
def innerSlice (s : String) : String :=
  String.mk ((s.toList.drop 1).dropLast)

/-! ### The key-value map backing a `Config` -/

/-- `type Key = (String, String)`: a group/variable pair. -/
abbrev Key : Type := String × String

/-- Lookup in the association-list model of `HashMap<Key, String>`. -/
def lookupKV : List (Key × String) → Key → Option String
  | [], _ => none
  | kv :: rest, k => if kv.1 = k then some kv.2 else lookupKV rest k

/-- Insert in the association-list model of `HashMap<Key, String>`: the
value of an existing key is overwritten, a new key is appended. -/
def insertKV : List (Key × String) → Key → String → List (Key × String)
  | [], k, v => [(k, v)]
  | kv :: rest, k, v =>
    if kv.1 = k then (k, v) :: rest else kv :: insertKV rest k v

/-- `struct Config { values: HashMap<Key, String> }`. -/
structure Config where
  values : List (Key × String)
  deriving DecidableEq, Repr

/-- `Config::default()`: the empty configuration. -/
def Config.default : Config := ⟨[]⟩

/-- `Config::get`: retrieve the value of the variable in the group. -/
def Config.get (c : Config) (group varName : String) : Option String :=
  lookupKV c.values (group, varName)

/-- `Config::get_default`: retrieve the value within the DEFAULT group. -/
def Config.get_default (c : Config) (varName : String) : Option String :=
  lookupKV c.values ("DEFAULT", varName)

/-- `Config::set`: add the value to the configuration, consuming it. -/
def Config.set (c : Config) (group var val : String) : Config :=
  ⟨insertKV c.values (group, var) val⟩

/-- `Config::set_default`: add the value within the DEFAULT group. -/
def Config.set_default (c : Config) (var val : String) : Config :=
  c.set "DEFAULT" var val

/-- `Config::merge_with`: insert every entry of `other` into `self`.
The Rust loop iterates over the entries of the HashMap `other.values`,
modelled here as the entry list of `other` (each key occurs once). -/
def Config.merge_with (self other : Config) : Config :=
  ⟨other.values.foldl (fun m kv => insertKV m kv.1 kv.2) self.values⟩

/-! ### The `uniq` iterator of `src/iter/uniq.rs` -/

/-- The state-passing loop of `UniqIterator::next`: emit each element not
in the `seen` set, adding it to `seen`; skip elements already seen. -/
def uniqAux {α : Type} [DecidableEq α] : List α → List α → List α
  | _, [] => []
  | seen, x :: xs =>
    if x ∈ seen then uniqAux seen xs else x :: uniqAux (x :: seen) xs

/-- `Uniq::uniq`: the deduplicated sequence, starting from an empty set. -/
def uniqList {α : Type} [DecidableEq α] (l : List α) : List α :=
  uniqAux [] l

/-- `Config::groups`: `self.values.keys().uniq().map(|k| &k.0)` — the
`uniq` adapter is applied to the keys, then each key is projected to its
group component. -/
def Config.groups (c : Config) : List String :=
  (uniqList (c.values.map Prod.fst)).map Prod.fst

/-! ### Errors -/

/-- An `io::ErrorKind`: only its identity matters to the parser, which
copies it into a `FileError` unchanged. -/
inductive ErrKind where
  | notFound
  | permissionDenied
  | other
  deriving DecidableEq, Repr

/-- `enum FileError`.  The constructor `ioErr` embeds the variant
`FileError::IO((PathBuf, io::ErrorKind))`; `Parse` embeds
`FileError::Parse { file, msg, data, line }`.  Paths are strings and the
line counter a natural number. -/
inductive FileError where
  | ioErr (file : String) (kind : ErrKind)
  | Parse (file : String) (msg : String) (data : String) (line : Nat)
  deriving DecidableEq, Repr

/-- The `From<io::Error> for FileError` conversion: it stores
`PathBuf::default()` — the empty path — together with the error kind. -/
def FileError.fromKind (k : ErrKind) : FileError :=
  FileError.ioErr "" k

/-- The line number carried by a structured parse error, if any. -/
def errLine : FileError → Option Nat
  | FileError.Parse _ _ _ n => some n
  | FileError.ioErr _ _ => none

/-! ### Line classification

The branch structure of the loop body of `Config::read_from_file`
(after `line = line.trim()`), factored into a pure classification. -/

/-- The classification of one trimmed line. -/
inductive LineClass where
  | blank
  | comment
  | header (name : String)
  | badHeader
  | assign (var : String) (val : String)
  | missingVar
  | invalid
  deriving DecidableEq, Repr

/-- Classify one raw line exactly as the loop body does: trim it, then
check in order for emptiness, a leading semicolon, a leading bracket
(with or without the closing bracket), a variable assignment split at the
first equal sign (the key right-trimmed and checked non-empty, the value
left-trimmed), and otherwise an invalid line. -/
def classifyLine (raw : String) : LineClass :=
  let line := strTrim raw
  if strIsEmpty line then LineClass.blank
  else if startsWithChar ';' line then LineClass.comment
  else if startsWithChar '[' line then
    if endsWithChar ']' line then LineClass.header (strTrim (innerSlice line))
    else LineClass.badHeader
  else
    match splitOnceChar '=' line with
    | some (var, val) =>
      if strIsEmpty (strTrimRight var) then LineClass.missingVar
      else LineClass.assign (strTrimRight var) (strTrimLeft val)
    | none => LineClass.invalid

/-! ### The parsing loop of `Config::read_from_file` -/

/-- One outcome of `reader.read_line`: a successfully delivered line, or
a read failure with its error kind.  End of input (a zero-length read) is
the end of the event list. -/
inductive ReadEvent where
  | ok (line : String)
  | err (kind : ErrKind)
  deriving DecidableEq, Repr

/-- The local state of the reading loop: the line counter `cnt`, the
accumulated `errors`, the working `map` and the current `group`. -/
structure ParseState where
  cnt : Nat
  errors : List FileError
  map : List (Key × String)
  group : String
  deriving DecidableEq, Repr

/-- The state before the loop: `cnt = 0`, no errors, an empty map, and
the current group `"DEFAULT"`. -/
def initState : ParseState :=
  ⟨0, [], [], "DEFAULT"⟩

/-- One iteration of the loop of `Config::read_from_file`.  A failed read
appends the converted error and continues without touching the counter.
A delivered line first advances the counter, then is classified: blank
and comment lines change nothing else; a well-formed header replaces the
current group; a malformed header, a missing variable name and an invalid
line each append one structured parse error citing the trimmed line and
the counter; an assignment inserts `(group, var) ↦ val` into the map. -/
def stepLine (path : String) (s : ParseState) : ReadEvent → ParseState
  | ReadEvent.err k =>
    { s with errors := s.errors ++ [FileError.fromKind k] }
  | ReadEvent.ok raw =>
    let cnt := s.cnt + 1
    let line := strTrim raw
    match classifyLine raw with
    | LineClass.blank => { s with cnt := cnt }
    | LineClass.comment => { s with cnt := cnt }
    | LineClass.header name => { s with cnt := cnt, group := name }
    | LineClass.badHeader =>
      { s with cnt := cnt,
               errors := s.errors ++
                 [FileError.Parse path "Missing closing bracket for group name" line cnt] }
    | LineClass.assign var val =>
      { s with cnt := cnt, map := insertKV s.map (s.group, var) val }
    | LineClass.missingVar =>
      { s with cnt := cnt,
               errors := s.errors ++
                 [FileError.Parse path "Assignment requires a variable name" line cnt] }
    | LineClass.invalid =>
      { s with cnt := cnt,
               errors := s.errors ++
                 [FileError.Parse path "Expected a variable assignment" line cnt] }

/-- Run the reading loop over a list of read events. -/
def runEvents (path : String) (evs : List ReadEvent) : ParseState :=
  evs.foldl (stepLine path) initState

/-- The result of `Config::read_from_file` after the loop: the built map
as a `Config` when the error list is empty, otherwise the error list. -/
def readFromLines (path : String) (evs : List ReadEvent) :
    Except (List FileError) Config :=
  let s := runEvents path evs
  if s.errors.isEmpty then Except.ok ⟨s.map⟩ else Except.error s.errors

/-- `Config::read_from_file` with the file-open step: an open failure
returns the single converted error without reading anything; otherwise
the loop runs over the delivered read events. -/
def read_from_file (path : String) (openFailure : Option ErrKind)
    (evs : List ReadEvent) : Except (List FileError) Config :=
  match openFailure with
  | some e => Except.error [FileError.fromKind e]
  | none => readFromLines path evs

/-! ### Instrumentation used to state the claims -/

/-- The structured errors the loop body appends for one delivered line
when the counter reads `n` after advancing. -/
def lineErrors (path raw : String) (n : Nat) : List FileError :=
  match classifyLine raw with
  | LineClass.badHeader =>
    [FileError.Parse path "Missing closing bracket for group name" (strTrim raw) n]
  | LineClass.missingVar =>
    [FileError.Parse path "Assignment requires a variable name" (strTrim raw) n]
  | LineClass.invalid =>
    [FileError.Parse path "Expected a variable assignment" (strTrim raw) n]
  | _ => []

/-- The number of successfully delivered lines among the read events. -/
def countOk : List ReadEvent → Nat
  | [] => 0
  | ReadEvent.ok _ :: evs => countOk evs + 1
  | ReadEvent.err _ :: evs => countOk evs

/-- The sequence of map insertions the loop performs, in line order,
starting from the given current group: each successful assignment
contributes `((group, var), val)`, and a well-formed header switches the
group for the remaining lines. -/
def traceFrom (group : String) : List ReadEvent → List (Key × String)
  | [] => []
  | ReadEvent.err _ :: evs => traceFrom group evs
  | ReadEvent.ok raw :: evs =>
    match classifyLine raw with
    | LineClass.header name => traceFrom name evs
    | LineClass.assign var val => ((group, var), val) :: traceFrom group evs
    | _ => traceFrom group evs

/-- The value of the last insertion to the key in the trace, if any. -/
def lastAssign : List (Key × String) → Key → Option String
  | [], _ => none
  | kv :: tr, k =>
    match lastAssign tr k with
    | some v => some v
    | none => if kv.1 = k then some kv.2 else none

/-! ### Lemmas about the map model -/

theorem lookupKV_insertKV (m : List (Key × String)) (k : Key) (v : String)
    (q : Key) :
    lookupKV (insertKV m k v) q = if q = k then some v else lookupKV m q := by
  induction m with
  | nil =>
    simp only [insertKV, lookupKV]
    by_cases hq : q = k
    · subst hq
      simp
    · rw [if_neg (fun h => hq h.symm), if_neg hq]
  | cons kv rest ih =>
    by_cases h : kv.1 = k
    · simp only [insertKV, if_pos h, lookupKV]
      by_cases hq : q = k
      · subst hq
        simp
      · rw [if_neg (fun hh => hq hh.symm), if_neg hq, if_neg (h ▸ fun hh => hq hh.symm)]
    · simp only [insertKV, if_neg h, lookupKV, ih]
      by_cases hkvq : kv.1 = q
      · rw [if_pos hkvq, if_neg (fun hh : q = k => h (hkvq.trans hh))]
        simp only [lookupKV, if_pos hkvq]
      · rw [if_neg hkvq]
        by_cases hq : q = k
        · rw [if_pos hq, if_pos hq]
        · rw [if_neg hq, if_neg hq]
          simp only [lookupKV, if_neg hkvq]

theorem lookupKV_eq_none (m : List (Key × String)) (k : Key)
    (h : k ∉ m.map Prod.fst) : lookupKV m k = none := by
  induction m with
  | nil => rfl
  | cons kv rest ih =>
    simp only [List.map_cons, List.mem_cons] at h
    push_neg at h
    simp only [lookupKV, if_neg (fun hh : kv.1 = k => h.1 hh.symm)]
    exact ih h.2

/-! ### Lemmas about the split at the first equal sign -/

theorem dropWhile_ne_of_mem {c : Char} {l : List Char} (h : c ∈ l) :
    l.dropWhile (fun x => x != c) = c :: (l.dropWhile (fun x => x != c)).tail := by
  induction l with
  | nil => cases h
  | cons a l ih =>
    by_cases ha : a = c
    · subst ha
      simp [List.dropWhile_cons]
    · have hc : c ∈ l := by
        rcases List.mem_cons.mp h with h1 | h1
        · exact absurd h1.symm ha
        · exact h1
      simpa [List.dropWhile_cons, bne_iff_ne, ha] using ih hc

theorem not_mem_takeWhile_ne (c : Char) (l : List Char) :
    c ∉ l.takeWhile (fun x => x != c) := by
  intro hmem
  have hp := List.mem_takeWhile_imp hmem
  simp at hp

theorem splitOnceChar_eq_some {c : Char} {s bef aft : String}
    (h : splitOnceChar c s = some (bef, aft)) :
    s.toList = bef.toList ++ c :: aft.toList ∧ c ∉ bef.toList := by
  unfold splitOnceChar at h
  by_cases hc : c ∈ s.toList
  · rw [if_pos hc] at h
    have hbef : bef = String.mk (s.toList.takeWhile (fun x => x != c)) := by
      have := congrArg (fun o => Option.map Prod.fst o) h
      simpa using this.symm
    have haft : aft = String.mk ((s.toList.dropWhile (fun x => x != c)).tail) := by
      have := congrArg (fun o => Option.map Prod.snd o) h
      simpa using this.symm
    subst hbef haft
    constructor
    · conv_lhs => rw [← List.takeWhile_append_dropWhile (p := fun x : Char => x != c)
        (l := s.toList)]
      rw [dropWhile_ne_of_mem hc]
      simp [String.toList]
    · simpa [String.toList] using not_mem_takeWhile_ne c s.toList
  · rw [if_neg hc] at h
    cases h

/-! ### Lemmas about the loop body -/

theorem stepLine_err (path : String) (s : ParseState) (k : ErrKind) :
    stepLine path s (ReadEvent.err k)
      = { s with errors := s.errors ++ [FileError.fromKind k] } := rfl

theorem stepLine_ok_cnt (path : String) (s : ParseState) (raw : String) :
    (stepLine path s (ReadEvent.ok raw)).cnt = s.cnt + 1 := by
  cases h : classifyLine raw <;> simp [stepLine, h]

theorem stepLine_ok_errors (path : String) (s : ParseState) (raw : String) :
    (stepLine path s (ReadEvent.ok raw)).errors
      = s.errors ++ lineErrors path raw (s.cnt + 1) := by
  cases h : classifyLine raw <;> simp [stepLine, lineErrors, h]

theorem cnt_foldl (path : String) (evs : List ReadEvent) (s : ParseState) :
    (List.foldl (stepLine path) s evs).cnt = s.cnt + countOk evs := by
  induction evs generalizing s with
  | nil => simp [countOk]
  | cons ev evs ih =>
    cases ev with
    | ok raw =>
      rw [List.foldl_cons, ih, stepLine_ok_cnt, countOk]
      omega
    | err k =>
      rw [List.foldl_cons, ih, stepLine_err, countOk]

theorem lookup_foldl (path : String) (evs : List ReadEvent) (s : ParseState)
    (k : Key) :
    lookupKV (List.foldl (stepLine path) s evs).map k
      = match lastAssign (traceFrom s.group evs) k with
        | some v => some v
        | none => lookupKV s.map k := by
  induction evs generalizing s with
  | nil => simp [traceFrom, lastAssign]
  | cons ev evs ih =>
    cases ev with
    | err kk =>
      rw [List.foldl_cons, stepLine_err]
      simpa [traceFrom] using
        ih { s with errors := s.errors ++ [FileError.fromKind kk] }
    | ok raw =>
      rw [List.foldl_cons]
      cases h : classifyLine raw with
      | blank =>
        simp only [stepLine, h]
        simpa [traceFrom, h] using ih { s with cnt := s.cnt + 1 }
      | comment =>
        simp only [stepLine, h]
        simpa [traceFrom, h] using ih { s with cnt := s.cnt + 1 }
      | header name =>
        simp only [stepLine, h]
        simpa [traceFrom, h] using
          ih { s with cnt := s.cnt + 1, group := name }
      | badHeader =>
        simp only [stepLine, h]
        simpa [traceFrom, h] using
          ih { s with cnt := s.cnt + 1, errors := s.errors ++
            [FileError.Parse path "Missing closing bracket for group name"
              (strTrim raw) (s.cnt + 1)] }
      | missingVar =>
        simp only [stepLine, h]
        simpa [traceFrom, h] using
          ih { s with cnt := s.cnt + 1, errors := s.errors ++
            [FileError.Parse path "Assignment requires a variable name"
              (strTrim raw) (s.cnt + 1)] }
      | invalid =>
        simp only [stepLine, h]
        simpa [traceFrom, h] using
          ih { s with cnt := s.cnt + 1, errors := s.errors ++
            [FileError.Parse path "Expected a variable assignment"
              (strTrim raw) (s.cnt + 1)] }
      | assign var val =>
        simp only [stepLine, h]
        rw [ih { s with cnt := s.cnt + 1,
                        map := insertKV s.map (s.group, var) val }]
        simp only [traceFrom, h, lastAssign]
        cases hla : lastAssign (traceFrom s.group evs) k with
        | some v => simp
        | none =>
          simp only []
          rw [lookupKV_insertKV]
          by_cases hk : (s.group, var) = k
          · rw [if_pos hk, if_pos hk.symm]
          · rw [if_neg hk, if_neg (fun hh : k = (s.group, var) => hk hh.symm)]

theorem lastAssign_eq_getLast (tr : List (Key × String)) (k : Key) :
    lastAssign tr k
      = ((tr.filter (fun kv => kv.1 = k)).map Prod.snd).getLast? := by
  induction tr with
  | nil => rfl
  | cons kv tr ih =>
    by_cases h : kv.1 = k
    · simp only [lastAssign, List.filter_cons, h, decide_True, if_true,
        List.map_cons, eq_self_iff_true]
      cases hla : lastAssign tr k with
      | some v =>
        have hlast := ih ▸ hla
        rcases List.getLast?_eq_some_iff.mp hlast with ⟨ys, hys⟩
        rw [hys, show kv.2 :: (ys ++ [v]) = (kv.2 :: ys) ++ [v] from rfl,
          List.getLast?_concat]
      | none =>
        have hlast := ih ▸ hla
        rw [List.getLast?_eq_none_iff.mp hlast]
        simp [h]
    · simp only [lastAssign, List.filter_cons, decide_eq_true_eq, if_neg h]
      cases hla : lastAssign tr k with
      | some v => simp only [hla, if_neg h]; exact hla ▸ ih
      | none => simp only [hla, if_neg h]; exact hla ▸ ih

theorem lookup_merge_foldl (entries m : List (Key × String)) (k : Key)
    (hnd : (entries.map Prod.fst).Nodup) :
    lookupKV (entries.foldl (fun acc kv => insertKV acc kv.1 kv.2) m) k
      = match lookupKV entries k with
        | some v => some v
        | none => lookupKV m k := by
  induction entries generalizing m with
  | nil => simp [lookupKV]
  | cons kv rest ih =>
    simp only [List.map_cons, List.nodup_cons] at hnd
    rw [List.foldl_cons, ih _ hnd.2]
    by_cases hk : kv.1 = k
    · have hnone : lookupKV rest k = none :=
        lookupKV_eq_none rest k (hk ▸ hnd.1)
      simp only [lookupKV, if_pos hk, hnone]
      rw [lookupKV_insertKV, if_pos hk.symm]
    · simp only [lookupKV, if_neg hk]
      cases hr : lookupKV rest k with
      | some v => simp
      | none =>
        simp only []
        rw [lookupKV_insertKV, if_neg (fun hh : k = kv.1 => hk hh.symm)]

theorem runEvents_append (path : String) (evs1 evs2 : List ReadEvent) :
    runEvents path (evs1 ++ evs2)
      = List.foldl (stepLine path) (runEvents path evs1) evs2 := by
  rw [runEvents, List.foldl_append]
  rfl

theorem classifyLine_of_split (l bef aft : String)
    (ht : strTrim l = l) (h1 : startsWithChar ';' l = false)
    (h2 : startsWithChar '[' l = false) (h3 : strIsEmpty l = false)
    (hsplit : splitOnceChar '=' l = some (bef, aft)) :
    classifyLine l
      = if strIsEmpty (strTrimRight bef) then LineClass.missingVar
        else LineClass.assign (strTrimRight bef) (strTrimLeft aft) := by
  unfold classifyLine
  rw [ht]
  rw [if_neg (by simp [h3]), if_neg (by simp [h1]), if_neg (by simp [h2]),
    hsplit]

/-! ### The claims -/

/-- C1: the claim that `groups()` yields each distinct group name exactly
once fails on the code: `uniq` is applied to the already-distinct keys
before the projection to the group component, so a group holding two
variables is yielded once per variable.  At the store built by
`Config::default().set("A","x","1").set("A","y","2")`, `groups()` yields
`"A"` twice. -/
theorem config_groups_duplicates_group_names :
    ((Config.default.set "A" "x" "1").set "A" "y" "2").groups = ["A", "A"]
    ∧ (((Config.default.set "A" "x" "1").set "A" "y" "2").groups).count "A" ≠ 1 := by
  constructor
  · rfl
  · decide

/-- C2: `read_from_file` returns either a `Config` built from the working
map when the loop finished with an empty error list, or the complete
error list the loop accumulated; never both, and the partially built map
is never surfaced when at least one error occurred. -/
theorem read_from_file_all_or_errors (path : String) (evs : List ReadEvent) :
    ((runEvents path evs).errors = []
      ∧ readFromLines path evs = Except.ok ⟨(runEvents path evs).map⟩)
    ∨ ((runEvents path evs).errors ≠ []
      ∧ readFromLines path evs = Except.error (runEvents path evs).errors) := by
  by_cases h : (runEvents path evs).errors = []
  · left
    exact ⟨h, by simp [readFromLines, h]⟩
  · right
    refine ⟨h, ?_⟩
    simp only [readFromLines]
    rw [if_neg (by simpa [List.isEmpty_iff] using h)]

/-- C2 witness: a one-line input instantiating the disjunction. -/
theorem read_from_file_all_or_errors_witness :
    ((runEvents "w2" [ReadEvent.ok "a = 1"]).errors = []
      ∧ readFromLines "w2" [ReadEvent.ok "a = 1"]
        = Except.ok ⟨(runEvents "w2" [ReadEvent.ok "a = 1"]).map⟩)
    ∨ ((runEvents "w2" [ReadEvent.ok "a = 1"]).errors ≠ []
      ∧ readFromLines "w2" [ReadEvent.ok "a = 1"]
        = Except.error (runEvents "w2" [ReadEvent.ok "a = 1"]).errors) :=
  read_from_file_all_or_errors "w2" [ReadEvent.ok "a = 1"]

/-- C3: a trimmed line that is non-empty, does not start with a semicolon
or an opening bracket, and contains an equal sign is split at the first
equal sign only (the text before it contains no equal sign, so the value
may itself contain one); the key is the text before it right-trimmed and
the value the text after it left-trimmed; an empty trimmed key yields the
missing-variable-name error, otherwise the assignment is inserted. -/
theorem classify_assignment_splits_at_first_equal (path : String)
    (s : ParseState) (l bef aft : String)
    (ht : strTrim l = l) (h1 : startsWithChar ';' l = false)
    (h2 : startsWithChar '[' l = false) (h3 : strIsEmpty l = false)
    (hsplit : splitOnceChar '=' l = some (bef, aft)) :
    l.toList = bef.toList ++ '=' :: aft.toList
    ∧ '=' ∉ bef.toList
    ∧ stepLine path s (ReadEvent.ok l) =
        (if strIsEmpty (strTrimRight bef) then
          { s with cnt := s.cnt + 1,
                   errors := s.errors ++
                     [FileError.Parse path "Assignment requires a variable name"
                       l (s.cnt + 1)] }
        else
          { s with cnt := s.cnt + 1,
                   map := insertKV s.map (s.group, strTrimRight bef)
                     (strTrimLeft aft) }) := by
  obtain ⟨hdec, hnot⟩ := splitOnceChar_eq_some hsplit
  refine ⟨hdec, hnot, ?_⟩
  have hcl := classifyLine_of_split l bef aft ht h1 h2 h3 hsplit
  by_cases hv : strIsEmpty (strTrimRight bef) = true
  · rw [if_pos hv] at hcl ⊢
    simp only [stepLine, hcl, ht]
  · rw [if_neg hv] at hcl ⊢
    simp only [stepLine, hcl, ht]

/-- C3 witness: the line `a = b = c` splits into key `a` and value
`b = c`. -/
theorem classify_assignment_splits_witness :
    ("a = b = c" : String).toList
      = ("a " : String).toList ++ '=' :: (" b = c" : String).toList
    ∧ '=' ∉ ("a " : String).toList
    ∧ stepLine "w3" initState (ReadEvent.ok "a = b = c") =
        (if strIsEmpty (strTrimRight "a ") then
          { initState with
              cnt := initState.cnt + 1,
              errors := initState.errors ++
                [FileError.Parse "w3" "Assignment requires a variable name"
                  "a = b = c" (initState.cnt + 1)] }
        else
          { initState with
              cnt := initState.cnt + 1,
              map := insertKV initState.map
                (initState.group, strTrimRight "a ")
                (strTrimLeft " b = c") }) :=
  classify_assignment_splits_at_first_equal "w3" initState "a = b = c"
    "a " " b = c" (by decide) (by decide) (by decide) (by decide) (by decide)

/-- C4: when a successful parse contains two or more assignments to the
same group/variable pair (in the insertion trace computed with the
running group, in line order), the resulting store maps that pair to the
value of the last such assignment. -/
theorem parse_last_write_wins (path : String) (evs : List ReadEvent)
    (g x : String) (c : Config)
    (h2 : 2 ≤ ((traceFrom "DEFAULT" evs).filter
      (fun kv => kv.1 = (g, x))).length)
    (hok : readFromLines path evs = Except.ok c) :
    c.get g x = (((traceFrom "DEFAULT" evs).filter
      (fun kv => kv.1 = (g, x))).map Prod.snd).getLast? := by
  have hmap : c = ⟨(runEvents path evs).map⟩ := by
    simp only [readFromLines] at hok
    by_cases he : (runEvents path evs).errors.isEmpty
    · rw [if_pos he] at hok
      cases hok
      rfl
    · rw [if_neg he] at hok
      cases hok
  subst hmap
  show lookupKV (runEvents path evs).map (g, x) = _
  rw [runEvents, lookup_foldl, ← lastAssign_eq_getLast]
  cases hla : lastAssign (traceFrom initState.group evs) (g, x) with
  | some v =>
    simp only [initState] at hla ⊢
    rw [hla]
  | none =>
    simp only [initState, lookupKV] at hla ⊢
    rw [hla]

/-- C4 witness: two assignments to `a`; the parse stores the later value
`2`. -/
theorem parse_last_write_wins_witness :
    2 ≤ ((traceFrom "DEFAULT" [ReadEvent.ok "a = 1", ReadEvent.ok "a = 2"]).filter
      (fun kv => kv.1 = (("DEFAULT" : String), ("a" : String)))).length
    ∧ (⟨[((("DEFAULT" : String), ("a" : String)), ("2" : String))]⟩ : Config).get
        "DEFAULT" "a"
      = (((traceFrom "DEFAULT"
          [ReadEvent.ok "a = 1", ReadEvent.ok "a = 2"]).filter
        (fun kv => kv.1 = (("DEFAULT" : String), ("a" : String)))).map
          Prod.snd).getLast? :=
  ⟨by decide,
   parse_last_write_wins "w4" [ReadEvent.ok "a = 1", ReadEvent.ok "a = 2"]
     "DEFAULT" "a" ⟨[(("DEFAULT", "a"), "2")]⟩ (by decide) rfl⟩

/-- C5: merging prefers `other`: every key present in `other` maps to the
value in `other` after the merge, and a key absent from `other` keeps the
value of `self`.  The hypothesis states the HashMap invariant that the
entry list of `other` holds each key once. -/
theorem merge_with_prefers_other (a b : Config) (g x : String)
    (hnd : (b.values.map Prod.fst).Nodup) :
    (∀ v, b.get g x = some v → (a.merge_with b).get g x = some v)
    ∧ (b.get g x = none → (a.merge_with b).get g x = a.get g x) := by
  have hm : (a.merge_with b).get g x
      = match b.get g x with
        | some v => some v
        | none => a.get g x :=
    lookup_merge_foldl b.values a.values (g, x) hnd
  constructor
  · intro v hv
    rw [hm, hv]
  · intro hv
    rw [hm, hv]

/-- C5 witness: the key `(G, x)` present in both stores takes the value
of `other`, and the key `(H, y)` present only in `self` is preserved. -/
theorem merge_with_prefers_other_witness :
    ((∀ v, (⟨[(("G", "x"), "2")]⟩ : Config).get "G" "x" = some v
      → ((⟨[(("G", "x"), "1"), (("H", "y"), "3")]⟩ : Config).merge_with
          ⟨[(("G", "x"), "2")]⟩).get "G" "x" = some v)
    ∧ ((⟨[(("G", "x"), "2")]⟩ : Config).get "G" "x" = none
      → ((⟨[(("G", "x"), "1"), (("H", "y"), "3")]⟩ : Config).merge_with
          ⟨[(("G", "x"), "2")]⟩).get "G" "x"
        = (⟨[(("G", "x"), "1"), (("H", "y"), "3")]⟩ : Config).get "G" "x"))
    ∧ ((∀ v, (⟨[(("G", "x"), "2")]⟩ : Config).get "H" "y" = some v
      → ((⟨[(("G", "x"), "1"), (("H", "y"), "3")]⟩ : Config).merge_with
          ⟨[(("G", "x"), "2")]⟩).get "H" "y" = some v)
    ∧ ((⟨[(("G", "x"), "2")]⟩ : Config).get "H" "y" = none
      → ((⟨[(("G", "x"), "1"), (("H", "y"), "3")]⟩ : Config).merge_with
          ⟨[(("G", "x"), "2")]⟩).get "H" "y"
        = (⟨[(("G", "x"), "1"), (("H", "y"), "3")]⟩ : Config).get "H" "y")) :=
  ⟨merge_with_prefers_other ⟨[(("G", "x"), "1"), (("H", "y"), "3")]⟩
      ⟨[(("G", "x"), "2")]⟩ "G" "x" (by decide),
   merge_with_prefers_other ⟨[(("G", "x"), "1"), (("H", "y"), "3")]⟩
      ⟨[(("G", "x"), "2")]⟩ "H" "y" (by decide)⟩

/-- C6: the line counter equals the number of successfully delivered
lines (blank and comment lines included), a failed read does not advance
it, and every structured error a delivered line produces carries the
1-based number counting all delivered lines up to and including it. -/
theorem parse_error_line_numbers (path : String) (evs : List ReadEvent)
    (raw : String) (k : ErrKind) :
    (runEvents path evs).cnt = countOk evs
    ∧ (runEvents path (evs ++ [ReadEvent.err k])).cnt = countOk evs
    ∧ (runEvents path (evs ++ [ReadEvent.ok raw])).errors
        = (runEvents path evs).errors ++ lineErrors path raw (countOk evs + 1)
    ∧ (∀ e, e ∈ lineErrors path raw (countOk evs + 1)
        → errLine e = some (countOk evs + 1)) := by
  have hcnt : (runEvents path evs).cnt = countOk evs := by
    rw [runEvents, cnt_foldl]
    simp [initState]
  refine ⟨hcnt, ?_, ?_, ?_⟩
  · rw [runEvents_append, List.foldl_cons, List.foldl_nil, stepLine_err]
    simpa using hcnt
  · rw [runEvents_append, List.foldl_cons, List.foldl_nil,
      stepLine_ok_errors, hcnt]
  · intro e he
    cases h : classifyLine raw <;>
      simp only [lineErrors, h, List.mem_singleton, List.not_mem_nil] at he <;>
      (subst he; rfl)

/-- C6 witness: after one delivered line and one failed read, the next
delivered bad header line is cited with line number 2. -/
theorem parse_error_line_numbers_witness :
    (runEvents "w6" [ReadEvent.ok "x = 1", ReadEvent.err ErrKind.other]).cnt
      = countOk [ReadEvent.ok "x = 1", ReadEvent.err ErrKind.other]
    ∧ (runEvents "w6" ([ReadEvent.ok "x = 1", ReadEvent.err ErrKind.other]
        ++ [ReadEvent.err ErrKind.other])).cnt
      = countOk [ReadEvent.ok "x = 1", ReadEvent.err ErrKind.other]
    ∧ (runEvents "w6" ([ReadEvent.ok "x = 1", ReadEvent.err ErrKind.other]
        ++ [ReadEvent.ok "[Bad Group"])).errors
      = (runEvents "w6" [ReadEvent.ok "x = 1", ReadEvent.err ErrKind.other]).errors
        ++ lineErrors "w6" "[Bad Group"
          (countOk [ReadEvent.ok "x = 1", ReadEvent.err ErrKind.other] + 1)
    ∧ (∀ e, e ∈ lineErrors "w6" "[Bad Group"
        (countOk [ReadEvent.ok "x = 1", ReadEvent.err ErrKind.other] + 1)
        → errLine e = some
          (countOk [ReadEvent.ok "x = 1", ReadEvent.err ErrKind.other] + 1)) :=
  parse_error_line_numbers "w6"
    [ReadEvent.ok "x = 1", ReadEvent.err ErrKind.other] "[Bad Group"
    ErrKind.other

/-- C7: the claim that every returned `IOError` carries the path of the
file being read fails on the code: the `From` conversion stores
`PathBuf::default()` — the empty path — so an open failure on
`nopath/notexist.conf` is reported with an empty path. -/
theorem read_io_error_carries_default_path :
    read_from_file "nopath/notexist.conf" (some ErrKind.notFound) []
      = Except.error [FileError.ioErr "" ErrKind.notFound]
    ∧ (runEvents "nopath/notexist.conf" [ReadEvent.err ErrKind.other]).errors
      = [FileError.ioErr "" ErrKind.other]
    ∧ ("" : String) ≠ "nopath/notexist.conf" := by
  refine ⟨rfl, rfl, ?_⟩
  decide

/-- C8: a line classified as an error appends exactly its one structured
error, leaves the working map and the current group unchanged, and the
loop continues with the remaining lines. -/
theorem error_line_frame (path : String) (s : ParseState) (raw : String)
    (evs : List ReadEvent)
    (h : classifyLine raw = LineClass.badHeader
      ∨ classifyLine raw = LineClass.missingVar
      ∨ classifyLine raw = LineClass.invalid) :
    (stepLine path s (ReadEvent.ok raw)).map = s.map
    ∧ (stepLine path s (ReadEvent.ok raw)).group = s.group
    ∧ (stepLine path s (ReadEvent.ok raw)).errors
        = s.errors ++ lineErrors path raw (s.cnt + 1)
    ∧ (lineErrors path raw (s.cnt + 1)).length = 1
    ∧ List.foldl (stepLine path) s (ReadEvent.ok raw :: evs)
        = List.foldl (stepLine path) (stepLine path s (ReadEvent.ok raw)) evs := by
  rcases h with h | h | h <;>
    exact ⟨by simp [stepLine, h], by simp [stepLine, h],
      stepLine_ok_errors path s raw, by simp [lineErrors, h], rfl⟩

/-- C8 witness: the bad header line `[Bad Group` in the initial state. -/
theorem error_line_frame_witness :
    (stepLine "w8" initState (ReadEvent.ok "[Bad Group")).map = initState.map
    ∧ (stepLine "w8" initState (ReadEvent.ok "[Bad Group")).group
        = initState.group
    ∧ (stepLine "w8" initState (ReadEvent.ok "[Bad Group")).errors
        = initState.errors ++ lineErrors "w8" "[Bad Group" (initState.cnt + 1)
    ∧ (lineErrors "w8" "[Bad Group" (initState.cnt + 1)).length = 1
    ∧ List.foldl (stepLine "w8") initState
        (ReadEvent.ok "[Bad Group" :: [ReadEvent.ok "a = 1"])
      = List.foldl (stepLine "w8")
          (stepLine "w8" initState (ReadEvent.ok "[Bad Group"))
          [ReadEvent.ok "a = 1"] :=
  error_line_frame "w8" initState "[Bad Group" [ReadEvent.ok "a = 1"]
    (by decide)

/-- C9: `get_default` on any store and variable returns exactly what
`get` returns for the DEFAULT group. -/
theorem get_default_eq_get (c : Config) (x : String) :
    c.get_default x = c.get "DEFAULT" x := rfl

/-- C10: a trimmed line with a non-empty key and nothing but whitespace
after the first equal sign parses without error and stores the empty
string as the value of the current group and that key. -/
theorem empty_value_allowed (path : String) (s : ParseState)
    (l bef aft : String)
    (ht : strTrim l = l) (h1 : startsWithChar ';' l = false)
    (h2 : startsWithChar '[' l = false) (h3 : strIsEmpty l = false)
    (hsplit : splitOnceChar '=' l = some (bef, aft))
    (hkey : strIsEmpty (strTrimRight bef) = false)
    (hval : strTrimLeft aft = "") :
    (stepLine path s (ReadEvent.ok l)).errors = s.errors
    ∧ (stepLine path s (ReadEvent.ok l)).map
        = insertKV s.map (s.group, strTrimRight bef) ""
    ∧ lookupKV (stepLine path s (ReadEvent.ok l)).map
        (s.group, strTrimRight bef) = some "" := by
  have hcl : classifyLine l
      = LineClass.assign (strTrimRight bef) "" := by
    rw [classifyLine_of_split l bef aft ht h1 h2 h3 hsplit,
      if_neg (by simp [hkey]), hval]
  refine ⟨?_, ?_, ?_⟩
  · simp [stepLine, hcl]
  · simp [stepLine, hcl]
  · simp [stepLine, hcl, lookupKV_insertKV]

/-- C10 witness: the line `var =` stores the empty string under
`(DEFAULT, var)` without error. -/
theorem empty_value_allowed_witness :
    (stepLine "w10" initState (ReadEvent.ok "var =")).errors
        = initState.errors
    ∧ (stepLine "w10" initState (ReadEvent.ok "var =")).map
        = insertKV initState.map (initState.group, strTrimRight "var ") ""
    ∧ lookupKV (stepLine "w10" initState (ReadEvent.ok "var =")).map
        (initState.group, strTrimRight "var ") = some "" :=
  empty_value_allowed "w10" initState "var =" "var " ""
    (by decide) (by decide) (by decide) (by decide) (by decide) (by decide)
    (by decide)

end UtilityBelt
